import Mathlib

/-
Verification of `src/extract_stackoverflow.py`.

The script has three sequential stages:
  1. a paginated question collector (lines 18-97): a `while True` loop that
     pages backwards in time through questions tagged "nlp", keyed by a
     `marker` holding the smallest `creation_date` seen in the last page;
  2. a batch accepted-answer resolver (lines 99-160): a `for` loop over
     100-id chunks of the accepted-answer ids;
  3. a CSV writer (lines 162-199).

The embedding below models each HTTP response the server can give as a
constructor of an inductive type, classified exactly the way the script
classifies responses:
  * `ok items backoff` — status 200 and `response.json()` succeeds; `items`
    is `data.get("items", [])` and `backoff` the optional `data["backoff"]`;
  * `throttle (some w)` — non-200 status, JSON parses, `error_name` is
    `"throttle_violation"`, and the regex `available in (\d+) seconds`
    matched `error_message` with group `w`;
  * `throttle none` — same but the regex did not match;
  * `otherError` — non-200 status, JSON parses, any other `error_name`;
  * `badJson` — `response.json()` raised.

Python dict values retrieved with `d[k]` on a possibly absent key are
modelled as `Option` fields; a `none` there reproduces the `KeyError`
(an unhandled exception that kills the whole script), tracked as a
`crashed` outcome.  Sleeps are recorded as events with rational durations
(`time.sleep(0.5)` is the rational 1/2).
-/

set_option autoImplicit false

namespace SOExtract

/-- One retrieved question object (lines 70, 76): every field access in the
script is either `q[k]` (modelled as an `Option` field whose `none` is a
`KeyError`) or `q.get(k, default)` (an `Option` field read with `getD`). -/
structure Item where
  question_id : Option Int
  creation_date : Option Int
  accepted_answer_id : Option Int
  title : Option String
  body : Option String
  tags : Option (List String)
  is_answered : Option Bool
deriving DecidableEq

/-- Query parameters of one questions request (lines 25-37): the literal
dict plus the optional `key` (only when `API_KEY` is truthy, line 33) and
the optional `max` (only when `marker is not None`, line 35, set to
`marker - 1`, line 37). -/
structure QParams where
  order : String
  sort : String
  tagged : String
  site : String
  pagesize : Nat
  filterName : String
  key : Option String
  max : Option Int
deriving DecidableEq

/-- Builds the params dict of lines 25-37 from the configured key and the
current marker. -/
def mkQParams (apiKey : String) (marker : Option Int) : QParams :=
  ⟨"desc", "creation", "nlp", "stackoverflow", 100, "withbody",
   if apiKey = "" then none else some apiKey,
   marker.map (fun m => m - 1)⟩

/-- A response of the questions endpoint as the script classifies it
(see the header comment). -/
inductive QResponse where
  | ok (items : List Item) (backoff : Option Nat)
  | throttle (wait : Option Nat)
  | otherError
  | badJson
deriving DecidableEq

/-- Observable actions of the collector loop: issuing a GET with given
params (line 40) or sleeping (lines 50, 54, 90, 92). -/
inductive QEvent where
  | request (p : QParams)
  | sleep (d : Rat)
deriving DecidableEq

/-- How a collector run ended: `finished` is a `break` from the loop,
`crashed` is the unhandled `KeyError` of line 79, `ranOut` means the
supplied response list ended while the loop would have kept going. -/
inductive COutcome where
  | finished
  | crashed
  | ranOut
deriving DecidableEq

/-- Result of a collector run: the event trace, the final `all_questions`,
the successive values assigned to `marker` (line 84), how many responses
were consumed, and how the loop ended. -/
structure CollectResult where
  events : List QEvent
  questions : List Item
  markers : List Int
  consumed : Nat
  outcome : COutcome
deriving DecidableEq

/-- Prepends one consumed iteration (its events and any marker it
assigned) to the result of the rest of the run. -/
def qprepend (evs : List QEvent) (mks : List Int) (r : CollectResult) :
    CollectResult :=
  ⟨evs ++ r.events, r.questions, mks ++ r.markers, r.consumed + 1, r.outcome⟩

/-- The minimum of `item["creation_date"] for item in items` (line 79):
`none` when some item lacks the key (Python raises `KeyError`) or the list
is empty (never reached: line 72 broke out on an empty page first). -/
def minCreation : List Item → Option Int
  | [] => none
  | [it] => it.creation_date
  | it :: rest =>
    match it.creation_date, minCreation rest with
    | some c, some m => some (min c m)
    | _, _ => none

/-- The pacing sleep between successful pages (lines 88-92): the advised
`backoff` when present, else 0.5 seconds. -/
def pacingOf (backoff : Option Nat) : Rat :=
  match backoff with
  | some b => (b : Rat)
  | none => (1 : Rat) / 2

/-- The guard of line 80: `marker is not None and new_marker >= marker`. -/
def nonProgress (marker : Option Int) (nm : Int) : Bool :=
  match marker with
  | some mv => decide (nm ≥ mv)
  | none => false

/-- The `while True` loop of lines 24-92, consuming one server response
per GET.  State: the current `marker` and the accumulated `all_questions`.
Each arm mirrors one control path of the loop body:
  * `throttle (some w)` — lines 47-51: sleep `w`, `continue` (state kept);
  * `throttle none` — lines 52-55: sleep 60, `continue`;
  * `otherError` — lines 56-59: `break`;
  * `badJson` — lines 60-62 or 64-68: `break`;
  * `ok` with empty `items` — lines 72-74: `break`;
  * `ok` otherwise — `extend` (line 76), compute `new_marker` (line 79,
    `crashed` on a missing `creation_date`), the non-progress guard of
    lines 80-82, then the marker update and pacing sleep. -/
def collectLoop (apiKey : String) :
    Option Int → List Item → List QResponse → CollectResult
  | _, acc, [] => ⟨[], acc, [], 0, .ranOut⟩
  | marker, acc, r :: rest =>
    let p := mkQParams apiKey marker
    match r with
    | .throttle (some w) =>
        qprepend [.request p, .sleep (w : Rat)] []
          (collectLoop apiKey marker acc rest)
    | .throttle none =>
        qprepend [.request p, .sleep 60] [] (collectLoop apiKey marker acc rest)
    | .otherError => ⟨[.request p], acc, [], 1, .finished⟩
    | .badJson => ⟨[.request p], acc, [], 1, .finished⟩
    | .ok items backoff =>
        if items.isEmpty then ⟨[.request p], acc, [], 1, .finished⟩
        else
          let acc2 := acc ++ items
          match minCreation items with
          | none => ⟨[.request p], acc2, [], 1, .crashed⟩
          | some nm =>
            if nonProgress marker nm then
              ⟨[.request p], acc2, [], 1, .finished⟩
            else
              qprepend [.request p, .sleep (pacingOf backoff)] [nm]
                (collectLoop apiKey (some nm) acc2 rest)

/-- Step 1 of the script: the collector starting from `marker = None`,
`all_questions = []` (lines 18-19). -/
def collectQuestions (apiKey : String) (rs : List QResponse) : CollectResult :=
  collectLoop apiKey none [] rs

/-- One answer object from the answers endpoint (line 151): `answer_id` is
read with `ans["answer_id"]` (a `KeyError` when absent), `body` with
`ans.get("body", "")`. -/
structure AnsRec where
  answer_id : Option Int
  body : Option String
deriving DecidableEq

/-- Query parameters of one answers request (lines 113-119). -/
structure AParams where
  site : String
  pagesize : Nat
  filterName : String
  key : Option String
deriving DecidableEq

/-- Builds the answer params dict of lines 113-119. -/
def mkAParams (apiKey : String) : AParams :=
  ⟨"stackoverflow", 100, "withbody", if apiKey = "" then none else some apiKey⟩

/-- A response of the answers endpoint, classified exactly like
`QResponse` (lines 122-149). -/
inductive AResponse where
  | ok (items : List AnsRec) (backoff : Option Nat)
  | throttle (wait : Option Nat)
  | otherError
  | badJson
deriving DecidableEq

/-- Observable actions of the resolver loop: a GET whose URL carries the
semicolon-joined chunk of ids (lines 110-121) or a sleep
(lines 131, 135, 156, 158). -/
inductive AEvent where
  | request (ids : List Int) (p : AParams)
  | sleep (d : Rat)
deriving DecidableEq

/-- How a resolver run ended: `finished` means the `for` loop ran through
all chunks, `crashed` is the unhandled `KeyError` of line 152. -/
inductive ROutcome where
  | finished
  | crashed
deriving DecidableEq

/-- Result of a resolver run: the event trace, the final
`accepted_answers` dict (as an association list in key-insertion order),
and how the loop ended. -/
structure ResolveResult where
  events : List AEvent
  answers : List (Int × String)
  outcome : ROutcome
deriving DecidableEq

/-- Prepends one chunk iteration to the result of the remaining chunks. -/
def aprepend (evs : List AEvent) (r : ResolveResult) : ResolveResult :=
  ⟨evs ++ r.events, r.answers, r.outcome⟩

/-- Python dict assignment `d[k] = v` on a dict kept as an association
list: an existing key keeps its position and gets the new value, a new key
is appended (CPython dicts preserve first-insertion order). -/
def dictInsert {α : Type} (ps : List (Int × α)) (k : Int) (v : α) :
    List (Int × α) :=
  if ps.any (fun p => p.1 == k) then
    ps.map (fun p => if p.1 == k then (k, v) else p)
  else ps ++ [(k, v)]

/-- Python `d.get(k)` / `d.get(k, default)` lookup on such a dict. -/
def dictFind {α : Type} (ps : List (Int × α)) (k : Int) : Option α :=
  (ps.find? (fun p => p.1 == k)).map (fun p => p.2)

/-- The recording loop of lines 151-152:
`for ans in ans_data.get("items", []): accepted_answers[ans["answer_id"]] = ans.get("body", "")`.
Returns the updated dict and whether a `KeyError` fired (which kills the
whole script, after the entries before it were already stored). -/
def recordAnswers : List AnsRec → List (Int × String) →
    List (Int × String) × Bool
  | [], acc => (acc, false)
  | a :: rest, acc =>
    match a.answer_id with
    | none => (acc, true)
    | some i => recordAnswers rest (dictInsert acc i (a.body.getD ""))

/-- Prepends a fixed response in front of a response oracle, so that the
head chunk sees `r` and later chunks see `rs` unshifted. -/
def consO (r : AResponse) (rs : Nat → AResponse) : Nat → AResponse :=
  fun n =>
    match n with
    | 0 => r
    | Nat.succ k => rs k

/-- The `for i in range(0, len(accepted_answer_ids), batch_size)` loop of
lines 109-158, one chunk per iteration.  Each iteration issues exactly one
GET for its chunk and consumes one response; note that on EVERY non-200
path the `continue` of lines 132, 136, 140, 143 (and 149) advances the
`for` loop to the NEXT chunk — a `continue` inside a Python `for` never
re-runs the same iteration, so no chunk is ever reissued:
  * `throttle (some w)` — lines 128-132: sleep `w`, next chunk;
  * `throttle none` — lines 133-136: sleep 60, next chunk;
  * `otherError` — lines 137-140: next chunk;
  * `badJson` — lines 141-143 or 145-149: next chunk;
  * `ok` — record the answers (lines 151-152; `crashed` aborts the run),
    then the backoff or 0.5-second pacing sleep (lines 154-158). -/
def resolveChunks (apiKey : String) (rs : Nat → AResponse) :
    List (List Int) → List (Int × String) → ResolveResult
  | [], acc => ⟨[], acc, .finished⟩
  | c :: cs, acc =>
    let p := mkAParams apiKey
    let shifted := fun n => rs (n + 1)
    match rs 0 with
    | .throttle (some w) =>
        aprepend [.request c p, .sleep (w : Rat)] (resolveChunks apiKey shifted cs acc)
    | .throttle none =>
        aprepend [.request c p, .sleep 60] (resolveChunks apiKey shifted cs acc)
    | .otherError => aprepend [.request c p] (resolveChunks apiKey shifted cs acc)
    | .badJson => aprepend [.request c p] (resolveChunks apiKey shifted cs acc)
    | .ok items backoff =>
        match recordAnswers items acc with
        | (acc2, true) => ⟨[.request c p], acc2, .crashed⟩
        | (acc2, false) =>
            aprepend [.request c p, .sleep (pacingOf backoff)]
              (resolveChunks apiKey shifted cs acc2)

/-- Fueled helper of `chunksFrom`: each step peels off `xs[0:100]` and
recurses on `xs[100:]`.  The fuel, instantiated with the list length
(an upper bound on the number of chunks), only makes the recursion
structural; it is never exhausted for the instantiation used. -/
def chunksGo : Nat → List Int → List (List Int)
  | 0, _ => []
  | f + 1, xs => if xs.isEmpty then [] else xs.take 100 :: chunksGo f (xs.drop 100)

/-- The chunking `accepted_answer_ids[i:i+100]` for
`i in range(0, len(accepted_answer_ids), 100)` (lines 108-110): the list
of successive 100-element slices. -/
def chunksFrom (xs : List Int) : List (List Int) :=
  chunksGo xs.length xs

/-- Step 2 of the script: chunk the accepted-answer ids and run the loop
with `accepted_answers = {}` (line 105). -/
def resolveAnswers (apiKey : String) (ids : List Int) (rs : Nat → AResponse) :
    ResolveResult :=
  resolveChunks apiKey rs (chunksFrom ids) []

/-- The dict comprehension of line 103:
`{q["question_id"]: q["accepted_answer_id"] for q in all_questions if "accepted_answer_id" in q}`.
`none` is the `KeyError` on a missing `question_id`. -/
def buildAcceptedIds : List Item → List (Int × Int) → Option (List (Int × Int))
  | [], acc => some acc
  | q :: rest, acc =>
    match q.accepted_answer_id with
    | none => buildAcceptedIds rest acc
    | some aid =>
      match q.question_id with
      | none => none
      | some qid => buildAcceptedIds rest (dictInsert acc qid aid)

/-- The ids actually sent to the answers endpoint over a whole resolver
run, in order: the concatenation of the id lists of its request events. -/
def requestedIds (r : ResolveResult) : List Int :=
  (r.events.filterMap (fun e =>
    match e with
    | .request ids _ => some ids
    | .sleep _ => none)).flatten

/-- Number of GETs the resolver issued. -/
def numRequests (r : ResolveResult) : Nat :=
  (r.events.filterMap (fun e =>
    match e with
    | .request ids _ => some ids
    | .sleep _ => none)).length

/-- Python `", ".join(tags)` (line 186). -/
def joinComma : List String → String
  | [] => ""
  | [s] => s
  | s :: rest => s ++ ", " ++ joinComma rest

/-- One CSV data row (lines 172-178, 191-197). -/
structure OutputRow where
  title : String
  description : String
  tags : String
  accepted_answer : String
  is_answered : Bool
deriving DecidableEq

/-- The row built for one question (lines 183-197): `get`-with-default for
title/body/tags/is_answered, and the accepted-answer column of lines
187-189: empty unless `"accepted_answer_id" in q`, else
`accepted_answers.get(q["accepted_answer_id"], "")`. -/
def mkRow (accepted_answers : List (Int × String)) (q : Item) : OutputRow :=
  ⟨q.title.getD "", q.body.getD "", joinComma (q.tags.getD []),
   (match q.accepted_answer_id with
    | some aid => (dictFind accepted_answers aid).getD ""
    | none => ""),
   q.is_answered.getD false⟩

/-- Step 3 of the script: the row-writing loop of lines 183-197, one row
per element of `all_questions`, in order. -/
def writeRows (accepted_answers : List (Int × String)) (qs : List Item) :
    List OutputRow :=
  qs.map (mkRow accepted_answers)

/-- How a whole run of the script ended. -/
inductive ProgStatus where
  | crashed
  | exitedEmpty
  | incomplete
  | completed
deriving DecidableEq

/-- Observable result of a whole run: the two event traces, the CSV
content if the file was created (`none` means `open` at line 180 was never
reached, so no file exists, not even a header-only one), and the exit
status.  `exitedEmpty` is the `exit()` of line 97, `incomplete` the
artificial case where the supplied question-response list ran out. -/
structure RunResult where
  qevents : List QEvent
  aevents : List AEvent
  output : Option (List OutputRow)
  status : ProgStatus
deriving DecidableEq

/-- The whole script: collector (lines 18-97), then — only when some
questions were retrieved — the accepted-id dict (line 103), the resolver
(lines 104-158) and the writer (lines 180-197). -/
def runProgram (apiKey : String) (qrs : List QResponse)
    (ars : Nat → AResponse) : RunResult :=
  let cr := collectQuestions apiKey qrs
  match cr.outcome with
  | .ranOut => ⟨cr.events, [], none, .incomplete⟩
  | .crashed => ⟨cr.events, [], none, .crashed⟩
  | .finished =>
    if cr.questions.isEmpty then ⟨cr.events, [], none, .exitedEmpty⟩
    else
      match buildAcceptedIds cr.questions [] with
      | none => ⟨cr.events, [], none, .crashed⟩
      | some mp =>
        let rr := resolveAnswers apiKey (mp.map (fun p => p.2)) ars
        match rr.outcome with
        | .crashed => ⟨cr.events, rr.events, none, .crashed⟩
        | .finished =>
            ⟨cr.events, rr.events, some (writeRows rr.answers cr.questions),
             .completed⟩

/-- The items of a successful page (and `[]` for every other response):
used to state assumptions about the pages a server hands the collector. -/
def okItems : QResponse → List Item
  | .ok items _ => items
  | _ => []

/-- Item `a` is strictly older than item `b`: both carry creation dates
and the date of `a` is smaller. -/
def cdLt (a b : Item) : Bool :=
  match a.creation_date, b.creation_date with
  | some x, some y => decide (x < y)
  | _, _ => false

/-! Helper lemmas. -/

/-- Unfolding equation of `chunksGo` on a nonempty list. -/
theorem chunksGo_cons (f : Nat) (xs : List Int) (h : ¬ xs.isEmpty) :
    chunksGo (f + 1) xs = xs.take 100 :: chunksGo f (xs.drop 100) := by
  simp [chunksGo, h]

/-- A list fed to `chunksGo` with fuel at least its length is nonempty
whenever its fuel bound survives one peeling step. -/
theorem length_drop_le_of_ne (f : Nat) (xs : List Int) (hlen : xs.length ≤ f + 1)
    (h : ¬ xs.isEmpty) : (xs.drop 100).length ≤ f := by
  have hne : xs ≠ [] := by simpa using h
  have hpos : 0 < xs.length := List.length_pos.mpr hne
  simp only [List.length_drop]
  omega

/-- Every chunk produced with enough fuel has at most 100 elements. -/
theorem chunksGo_length_le (f : Nat) :
    ∀ (xs : List Int), xs.length ≤ f → ∀ c ∈ chunksGo f xs, c.length ≤ 100 := by
  induction f with
  | zero => intro xs _ c hc; simp [chunksGo] at hc
  | succ f ih =>
    intro xs hlen c hc
    by_cases hxs : xs.isEmpty
    · simp [chunksGo, hxs] at hc
    · rw [chunksGo_cons f xs hxs] at hc
      rcases List.mem_cons.mp hc with hc | hc
      · subst hc
        exact List.length_take_le 100 xs
      · exact ih (xs.drop 100) (length_drop_le_of_ne f xs hlen hxs) c hc

/-- With enough fuel the number of chunks is the ceiling of n/100. -/
theorem chunksGo_count (f : Nat) :
    ∀ (xs : List Int), xs.length ≤ f →
      (chunksGo f xs).length = (xs.length + 99) / 100 := by
  induction f with
  | zero =>
    intro xs hlen
    have : xs.length = 0 := Nat.le_zero.mp hlen
    simp [chunksGo, this]
  | succ f ih =>
    intro xs hlen
    by_cases hxs : xs.isEmpty
    · have : xs.length = 0 := by simpa [List.isEmpty_iff_length_eq_zero] using hxs
      simp [chunksGo, hxs, this]
    · have hne : xs.length ≠ 0 := by
        simpa [List.isEmpty_iff_length_eq_zero] using hxs
      have hrec := ih (xs.drop 100) (length_drop_le_of_ne f xs hlen hxs)
      rw [chunksGo_cons f xs hxs]
      simp only [List.length_cons, hrec, List.length_drop]
      omega

/-- With enough fuel the chunks concatenate back to the original list. -/
theorem chunksGo_flatten (f : Nat) :
    ∀ (xs : List Int), xs.length ≤ f → (chunksGo f xs).flatten = xs := by
  induction f with
  | zero =>
    intro xs hlen
    have : xs.length = 0 := Nat.le_zero.mp hlen
    simp [chunksGo, List.eq_nil_of_length_eq_zero this]
  | succ f ih =>
    intro xs hlen
    by_cases hxs : xs.isEmpty
    · have : xs.length = 0 := by simpa [List.isEmpty_iff_length_eq_zero] using hxs
      simp [chunksGo, hxs, List.eq_nil_of_length_eq_zero this]
    · have hrec := ih (xs.drop 100) (length_drop_le_of_ne f xs hlen hxs)
      rw [chunksGo_cons f xs hxs]
      simp [hrec]

/-- Every chunk the resolver forms has at most 100 ids. -/
theorem chunksFrom_length_le (xs : List Int) :
    ∀ c ∈ chunksFrom xs, c.length ≤ 100 :=
  chunksGo_length_le xs.length xs le_rfl

/-- The number of chunks is the ceiling of n/100. -/
theorem chunksFrom_count (xs : List Int) :
    (chunksFrom xs).length = (xs.length + 99) / 100 :=
  chunksGo_count xs.length xs le_rfl

/-- The chunks concatenate back to the id list. -/
theorem chunksFrom_flatten (xs : List Int) : (chunksFrom xs).flatten = xs :=
  chunksGo_flatten xs.length xs le_rfl

/-- The first event of any collector iteration is the GET built from the
current marker. -/
theorem collectLoop_head_request (apiKey : String) (m : Option Int)
    (acc : List Item) (r : QResponse) (rest : List QResponse) :
    ∃ tail, (collectLoop apiKey m acc (r :: rest)).events
      = .request (mkQParams apiKey m) :: tail := by
  cases r with
  | ok items backoff =>
    by_cases h : items.isEmpty
    · exact ⟨[], by simp [collectLoop, h]⟩
    · cases hm : minCreation items with
      | none => exact ⟨[], by simp [collectLoop, h, hm]⟩
      | some nm =>
        by_cases hg : nonProgress m nm
        · exact ⟨[], by simp [collectLoop, h, hm, hg]⟩
        · exact ⟨.sleep (pacingOf backoff) ::
              (collectLoop apiKey (some nm) (acc ++ items) rest).events,
            by simp [collectLoop, h, hm, hg, qprepend]⟩
  | throttle w =>
    cases w with
    | none =>
      exact ⟨.sleep 60 :: (collectLoop apiKey m acc rest).events,
        by simp [collectLoop, qprepend]⟩
    | some v =>
      exact ⟨.sleep (v : Rat) :: (collectLoop apiKey m acc rest).events,
        by simp [collectLoop, qprepend]⟩
  | otherError => exact ⟨[], by simp [collectLoop]⟩
  | badJson => exact ⟨[], by simp [collectLoop]⟩

/-- A nonempty response list makes the collector consume at least one
response. -/
theorem collectLoop_consumed_pos (apiKey : String) (m : Option Int)
    (acc : List Item) (r : QResponse) (rest : List QResponse) :
    1 ≤ (collectLoop apiKey m acc (r :: rest)).consumed := by
  cases r with
  | ok items backoff =>
    by_cases h : items.isEmpty
    · simp [collectLoop, h]
    · cases hm : minCreation items with
      | none => simp [collectLoop, h, hm]
      | some nm =>
        by_cases hg : nonProgress m nm
        · simp [collectLoop, h, hm, hg]
        · simp [collectLoop, h, hm, hg, qprepend]
  | throttle w => cases w <;> simp [collectLoop, qprepend]
  | otherError => simp [collectLoop]
  | badJson => simp [collectLoop]

/-- Every marker assigned after the marker holds `mv` is smaller than
`mv`: the non-progress guard broke out of the loop otherwise. -/
theorem collectLoop_markers_lt (apiKey : String) :
    ∀ (rs : List QResponse) (mv : Int) (acc : List Item),
      ∀ x ∈ (collectLoop apiKey (some mv) acc rs).markers, x < mv := by
  intro rs
  induction rs with
  | nil => intro mv acc x hx; simp [collectLoop] at hx
  | cons r rest ih =>
    intro mv acc x hx
    cases r with
    | throttle w =>
      cases w with
      | none =>
        rw [show collectLoop apiKey (some mv) acc (.throttle none :: rest)
            = qprepend [.request (mkQParams apiKey (some mv)), .sleep 60] []
                (collectLoop apiKey (some mv) acc rest) from rfl] at hx
        simp only [qprepend, List.nil_append] at hx
        exact ih mv acc x hx
      | some w =>
        rw [show collectLoop apiKey (some mv) acc (.throttle (some w) :: rest)
            = qprepend [.request (mkQParams apiKey (some mv)), .sleep (w : Rat)]
                [] (collectLoop apiKey (some mv) acc rest) from rfl] at hx
        simp only [qprepend, List.nil_append] at hx
        exact ih mv acc x hx
    | otherError => simp [collectLoop] at hx
    | badJson => simp [collectLoop] at hx
    | ok items backoff =>
      by_cases h : items.isEmpty
      · simp [collectLoop, h] at hx
      · cases hm : minCreation items with
        | none => simp [collectLoop, h, hm] at hx
        | some nm =>
          by_cases hg : nonProgress (some mv) nm
          · simp [collectLoop, h, hm, hg] at hx
          · have hlt : nm < mv := by
              simp [nonProgress] at hg
              omega
            simp only [collectLoop, h, hm, hg, if_false, Bool.false_eq_true,
              if_neg, qprepend] at hx
            simp only [List.singleton_append, List.mem_cons] at hx
            rcases hx with hx | hx
            · omega
            · exact lt_trans (ih nm (acc ++ items) x hx) hlt

/-- The list of markers a collector run assigns is strictly decreasing. -/
theorem collectLoop_markers_pairwise (apiKey : String) :
    ∀ (rs : List QResponse) (m : Option Int) (acc : List Item),
      ((collectLoop apiKey m acc rs).markers).Pairwise (fun a b => b < a) := by
  intro rs
  induction rs with
  | nil => intro m acc; simp [collectLoop]
  | cons r rest ih =>
    intro m acc
    cases r with
    | throttle w =>
      cases w with
      | none => simpa [collectLoop, qprepend] using ih m acc
      | some w => simpa [collectLoop, qprepend] using ih m acc
    | otherError => simp [collectLoop]
    | badJson => simp [collectLoop]
    | ok items backoff =>
      by_cases h : items.isEmpty
      · simp [collectLoop, h]
      · cases hm : minCreation items with
        | none => simp [collectLoop, h, hm]
        | some nm =>
          by_cases hg : nonProgress m nm
          · simp [collectLoop, h, hm, hg]
          · simp only [collectLoop, h, hm, hg, if_false, Bool.false_eq_true,
              if_neg, qprepend, List.singleton_append]
            exact List.Pairwise.cons
              (fun x hx => collectLoop_markers_lt apiKey rest nm (acc ++ items) x hx)
              (ih (some nm) (acc ++ items))

/-- The request-and-sleep opening of a chunk adds exactly one request. -/
theorem numRequests_aprepend2 (c : List Int) (p : AParams) (d : Rat)
    (r : ResolveResult) :
    numRequests (aprepend [.request c p, .sleep d] r) = numRequests r + 1 := by
  simp [numRequests, aprepend, Nat.add_comm]

/-- The request-only opening of a chunk adds exactly one request. -/
theorem numRequests_aprepend1 (c : List Int) (p : AParams)
    (r : ResolveResult) :
    numRequests (aprepend [.request c p] r) = numRequests r + 1 := by
  simp [numRequests, aprepend, Nat.add_comm]

/-- One request per chunk: on every non-crashing run the resolver issues
as many GETs as there are chunks (even throttles and errors consume their
chunk). -/
theorem resolveChunks_numRequests (apiKey : String) :
    ∀ (cs : List (List Int)) (rs : Nat → AResponse) (acc : List (Int × String)),
      (resolveChunks apiKey rs cs acc).outcome = .finished →
      numRequests (resolveChunks apiKey rs cs acc) = cs.length := by
  intro cs
  induction cs with
  | nil => intro rs acc _; simp [resolveChunks, numRequests]
  | cons c cs ih =>
    intro rs acc h
    cases hr : rs 0 with
    | throttle w =>
      cases w with
      | none =>
        have hstep : resolveChunks apiKey rs (c :: cs) acc
            = aprepend [.request c (mkAParams apiKey), .sleep 60]
                (resolveChunks apiKey (fun n => rs (n + 1)) cs acc) := by
          simp [resolveChunks, hr]
        rw [hstep] at h ⊢
        rw [numRequests_aprepend2]
        have hout := h
        simp only [aprepend] at hout
        rw [ih _ _ hout]
        simp
      | some w =>
        have hstep : resolveChunks apiKey rs (c :: cs) acc
            = aprepend [.request c (mkAParams apiKey), .sleep (w : Rat)]
                (resolveChunks apiKey (fun n => rs (n + 1)) cs acc) := by
          simp [resolveChunks, hr]
        rw [hstep] at h ⊢
        rw [numRequests_aprepend2]
        have hout := h
        simp only [aprepend] at hout
        rw [ih _ _ hout]
        simp
    | otherError =>
      have hstep : resolveChunks apiKey rs (c :: cs) acc
          = aprepend [.request c (mkAParams apiKey)]
              (resolveChunks apiKey (fun n => rs (n + 1)) cs acc) := by
        simp [resolveChunks, hr]
      rw [hstep] at h ⊢
      rw [numRequests_aprepend1]
      have hout := h
      simp only [aprepend] at hout
      rw [ih _ _ hout]
      simp
    | badJson =>
      have hstep : resolveChunks apiKey rs (c :: cs) acc
          = aprepend [.request c (mkAParams apiKey)]
              (resolveChunks apiKey (fun n => rs (n + 1)) cs acc) := by
        simp [resolveChunks, hr]
      rw [hstep] at h ⊢
      rw [numRequests_aprepend1]
      have hout := h
      simp only [aprepend] at hout
      rw [ih _ _ hout]
      simp
    | ok items backoff =>
      cases hrec : recordAnswers items acc with
      | mk acc2 crashed =>
        cases crashed with
        | true => simp [resolveChunks, hr, hrec] at h
        | false =>
          have hstep : resolveChunks apiKey rs (c :: cs) acc
              = aprepend [.request c (mkAParams apiKey),
                  .sleep (pacingOf backoff)]
                  (resolveChunks apiKey (fun n => rs (n + 1)) cs acc2) := by
            simp [resolveChunks, hr, hrec]
          rw [hstep] at h ⊢
          rw [numRequests_aprepend2]
          have hout := h
          simp only [aprepend] at hout
          rw [ih _ _ hout]
          simp

/-! Claim theorems. -/

/-- C1: the spec (and the log line at source line 130) says a throttled
resolver chunk is retried after the advertised sleep, but the `continue`
at line 132 sits inside a `for` loop, so it advances to the NEXT chunk.
At the failing input — a single chunk `[5]` whose response is a throttle
advertising a 5-second wait — the run sleeps 5 seconds and then ends:
exactly one request total, the chunk is never reissued, and id 5 is never
resolved. -/
theorem resolver_throttle_skips_chunk :
    resolveAnswers "" [5] (fun _ => .throttle (some 5))
      = ⟨[.request [5] (mkAParams ""), .sleep 5], [], .finished⟩
    ∧ numRequests (resolveAnswers "" [5] (fun _ => .throttle (some 5))) = 1
    ∧ (resolveAnswers "" [5] (fun _ => .throttle (some 5))).answers = [] := by
  refine ⟨by decide, by decide, by decide⟩

/-- C5: a throttled questions request with a parsed wait `w` sleeps `w`
and re-enters the loop with marker and accumulator unchanged, so the next
request uses the identical parameters; with an unparsed wait it sleeps
the fixed 60-second fallback and retries likewise.  The third conjunct
exhibits the reissued identical request explicitly. -/
theorem collector_throttle_retry_same_request :
    ∀ (apiKey : String) (m : Option Int) (acc : List Item) (w : Nat)
      (rest : List QResponse),
    (collectLoop apiKey m acc (.throttle (some w) :: rest)
      = qprepend [.request (mkQParams apiKey m), .sleep (w : Rat)] []
          (collectLoop apiKey m acc rest))
    ∧ (collectLoop apiKey m acc (.throttle none :: rest)
      = qprepend [.request (mkQParams apiKey m), .sleep 60] []
          (collectLoop apiKey m acc rest))
    ∧ ∀ (r : QResponse) (rest2 : List QResponse), ∃ tail,
        (collectLoop apiKey m acc (.throttle (some w) :: r :: rest2)).events
          = .request (mkQParams apiKey m) :: .sleep (w : Rat)
            :: .request (mkQParams apiKey m) :: tail := by
  intro apiKey m acc w rest
  refine ⟨rfl, rfl, ?_⟩
  intro r rest2
  obtain ⟨tail, ht⟩ := collectLoop_head_request apiKey m acc r rest2
  refine ⟨tail, ?_⟩
  rw [show collectLoop apiKey m acc (.throttle (some w) :: r :: rest2)
      = qprepend [.request (mkQParams apiKey m), .sleep (w : Rat)] []
          (collectLoop apiKey m acc (r :: rest2)) from rfl]
  simp [qprepend, ht]

/-- C3: across one collector run the assigned cursor values are strictly
decreasing, and an iteration is the last one (consumes exactly its own
response, with the loop genuinely ending rather than the supplied
response list running out) exactly when the response is a non-throttle
error, an unparseable payload, an empty page, a page on which the
`min` of line 79 raises, or a page whose new cursor fails to be strictly
smaller than the current one. -/
theorem collector_cursor_decreasing_and_termination :
    (∀ (apiKey : String) (qrs : List QResponse),
      ((collectQuestions apiKey qrs).markers).Pairwise (fun a b => b < a))
    ∧ (∀ (apiKey : String) (m : Option Int) (acc : List Item)
        (r : QResponse) (rest : List QResponse),
        ((collectLoop apiKey m acc (r :: rest)).consumed = 1
          ∧ (collectLoop apiKey m acc (r :: rest)).outcome ≠ .ranOut)
        ↔ (r = .otherError ∨ r = .badJson
           ∨ ∃ items backoff, r = .ok items backoff
              ∧ (items = [] ∨ minCreation items = none
                 ∨ ∃ nm mv, minCreation items = some nm ∧ m = some mv
                     ∧ mv ≤ nm))) := by
  constructor
  · intro apiKey qrs
    exact collectLoop_markers_pairwise apiKey qrs none []
  · intro apiKey m acc r rest
    cases r with
    | throttle w =>
      have hstep : ∀ d : Rat,
          qprepend [.request (mkQParams apiKey m), .sleep d] []
              (collectLoop apiKey m acc rest)
            = ⟨.request (mkQParams apiKey m) :: .sleep d
                  :: (collectLoop apiKey m acc rest).events,
               (collectLoop apiKey m acc rest).questions,
               (collectLoop apiKey m acc rest).markers,
               (collectLoop apiKey m acc rest).consumed + 1,
               (collectLoop apiKey m acc rest).outcome⟩ :=
        fun d => rfl
      have hfalse : ¬ ((collectLoop apiKey m acc
            (QResponse.throttle w :: rest)).consumed = 1
          ∧ (collectLoop apiKey m acc
            (QResponse.throttle w :: rest)).outcome ≠ .ranOut) := by
        cases rest with
        | nil =>
          rintro ⟨-, h2⟩
          cases w <;> exact h2 rfl
        | cons r2 rest2 =>
          have hpos := collectLoop_consumed_pos apiKey m acc r2 rest2
          rintro ⟨h1, -⟩
          cases w with
          | none =>
            rw [show collectLoop apiKey m acc (.throttle none :: r2 :: rest2)
                = qprepend [.request (mkQParams apiKey m), .sleep 60] []
                    (collectLoop apiKey m acc (r2 :: rest2)) from rfl,
              hstep] at h1
            simp only at h1
            omega
          | some w2 =>
            rw [show collectLoop apiKey m acc
                  (.throttle (some w2) :: r2 :: rest2)
                = qprepend [.request (mkQParams apiKey m), .sleep (w2 : Rat)]
                    [] (collectLoop apiKey m acc (r2 :: rest2)) from rfl,
              hstep] at h1
            simp only at h1
            omega
      constructor
      · intro hc
        exact absurd hc hfalse
      · rintro (hc | hc | ⟨items, b, hc, -⟩) <;> exact QResponse.noConfusion hc
    | otherError =>
      constructor
      · intro _
        exact Or.inl rfl
      · intro _
        exact ⟨rfl, fun hc => COutcome.noConfusion hc⟩
    | badJson =>
      constructor
      · intro _
        exact Or.inr (Or.inl rfl)
      · intro _
        exact ⟨rfl, fun hc => COutcome.noConfusion hc⟩
    | ok items backoff =>
      by_cases h : items.isEmpty
      · have hit : items = [] := List.isEmpty_iff.mp h
        constructor
        · intro _
          exact Or.inr (Or.inr ⟨items, backoff, rfl, Or.inl hit⟩)
        · intro _
          refine ⟨?_, ?_⟩
          · simp [collectLoop, h]
          · simp [collectLoop, h]
      · have hit : items ≠ [] := fun he => h (by simp [he])
        cases hm : minCreation items with
        | none =>
          constructor
          · intro _
            exact Or.inr (Or.inr ⟨items, backoff, rfl, Or.inr (Or.inl hm)⟩)
          · intro _
            refine ⟨?_, ?_⟩
            · simp [collectLoop, h, hm]
            · simp [collectLoop, h, hm]
        | some nm =>
          by_cases hg : nonProgress m nm
          · cases m with
            | none => simp [nonProgress] at hg
            | some mv =>
              have hle : mv ≤ nm := by
                simp [nonProgress] at hg
                omega
              constructor
              · intro _
                exact Or.inr (Or.inr ⟨items, backoff, rfl,
                  Or.inr (Or.inr ⟨nm, mv, hm, rfl, hle⟩)⟩)
              · intro _
                refine ⟨?_, ?_⟩
                · simp [collectLoop, h, hm, hg]
                · simp [collectLoop, h, hm, hg]
          · have hstep : collectLoop apiKey m acc (.ok items backoff :: rest)
                = qprepend [.request (mkQParams apiKey m),
                    .sleep (pacingOf backoff)] [nm]
                    (collectLoop apiKey (some nm) (acc ++ items) rest) := by
              simp [collectLoop, h, hm, hg]
            have hfalse : ¬ ((collectLoop apiKey m acc
                  (.ok items backoff :: rest)).consumed = 1
                ∧ (collectLoop apiKey m acc
                  (.ok items backoff :: rest)).outcome ≠ .ranOut) := by
              rw [hstep]
              cases rest with
              | nil =>
                rintro ⟨-, h2⟩
                exact h2 rfl
              | cons r2 rest2 =>
                have hpos := collectLoop_consumed_pos apiKey (some nm)
                  (acc ++ items) r2 rest2
                rintro ⟨h1, -⟩
                simp only [qprepend] at h1
                omega
            constructor
            · intro hc
              exact absurd hc hfalse
            · intro hc
              exfalso
              rcases hc with hc | hc | hc
              · exact QResponse.noConfusion hc
              · exact QResponse.noConfusion hc
              · obtain ⟨items2, b2, heq, hrest⟩ := hc
                obtain ⟨h1, h2⟩ := QResponse.ok.inj heq
                subst h1
                subst h2
                rcases hrest with hrest | hrest | hrest
                · exact hit hrest
                · rw [hm] at hrest
                  exact Option.noConfusion hrest
                · obtain ⟨nm2, mv, hnm, hmv, hle⟩ := hrest
                  rw [hm] at hnm
                  obtain rfl := Option.some.inj hnm
                  subst hmv
                  simp [nonProgress] at hg
                  omega

/-- C6: a non-throttle error (or an unparseable payload) makes the
collector break out immediately, surfacing the questions gathered so far,
while the resolver merely skips the failed chunk and proceeds to the next
one with its answer map intact. -/
theorem nonthrottle_error_collector_aborts_resolver_skips :
    (∀ (apiKey : String) (m : Option Int) (acc : List Item)
        (rest : List QResponse),
      collectLoop apiKey m acc (.otherError :: rest)
        = ⟨[.request (mkQParams apiKey m)], acc, [], 1, .finished⟩
      ∧ collectLoop apiKey m acc (.badJson :: rest)
        = ⟨[.request (mkQParams apiKey m)], acc, [], 1, .finished⟩)
    ∧ (∀ (apiKey : String) (rs : Nat → AResponse) (c : List Int)
        (cs : List (List Int)) (acc : List (Int × String)),
      resolveChunks apiKey (consO .otherError rs) (c :: cs) acc
        = aprepend [.request c (mkAParams apiKey)]
            (resolveChunks apiKey rs cs acc)
      ∧ resolveChunks apiKey (consO .badJson rs) (c :: cs) acc
        = aprepend [.request c (mkAParams apiKey)]
            (resolveChunks apiKey rs cs acc)) := by
  constructor
  · intro apiKey m acc rest
    exact ⟨rfl, rfl⟩
  · intro apiKey rs c cs acc
    exact ⟨rfl, rfl⟩

set_option maxRecDepth 100000 in
/-- C8: no chunk exceeds 100 ids; a resolver run that is not killed by an
unhandled exception issues exactly the ceiling of n/100 requests; and 150
ids make exactly two chunks, of 100 and 50 ids, hence two requests. -/
theorem resolver_chunk_size_and_request_count :
    (∀ (ids : List Int), ∀ c ∈ chunksFrom ids, c.length ≤ 100)
    ∧ (∀ (apiKey : String) (ids : List Int) (rs : Nat → AResponse),
        (resolveAnswers apiKey ids rs).outcome = .finished →
        numRequests (resolveAnswers apiKey ids rs) = (ids.length + 99) / 100)
    ∧ ((chunksFrom ((List.range 150).map Int.ofNat)).map List.length
        = [100, 50]
       ∧ numRequests (resolveAnswers "" ((List.range 150).map Int.ofNat)
           (fun _ => .ok [] none)) = 2) := by
  refine ⟨chunksFrom_length_le, ?_, by decide, by decide⟩
  intro apiKey ids rs h
  have := resolveChunks_numRequests apiKey (chunksFrom ids) rs [] h
  rw [resolveAnswers] at *
  rw [this, chunksFrom_count]

/-- Witness for C8 at a concrete input: three ids form one chunk, within
the 100-id bound, and a clean run issues exactly one request. -/
theorem resolver_chunk_size_witness :
    (([1, 2, 3] : List Int) ∈ chunksFrom [1, 2, 3]
      ∧ ([1, 2, 3] : List Int).length ≤ 100)
    ∧ ((resolveAnswers "" [1, 2, 3] (fun _ => .ok [] none)).outcome
        = .finished
      ∧ numRequests (resolveAnswers "" [1, 2, 3] (fun _ => .ok [] none))
        = (([1, 2, 3] : List Int).length + 99) / 100) :=
  ⟨⟨by decide,
    resolver_chunk_size_and_request_count.1 [1, 2, 3] [1, 2, 3] (by decide)⟩,
   ⟨by decide,
    resolver_chunk_size_and_request_count.2.1 "" [1, 2, 3]
      (fun _ => .ok [] none) (by decide)⟩⟩

/-- C10: when the collector finishes with zero questions the script hits
the `exit()` of line 97: the resolver never runs (no answer requests) and
the CSV file is never created, not even with just a header. -/
theorem empty_collection_exits_before_output :
    ∀ (apiKey : String) (qrs : List QResponse) (ars : Nat → AResponse),
      (collectQuestions apiKey qrs).outcome = .finished →
      (collectQuestions apiKey qrs).questions = [] →
      runProgram apiKey qrs ars
        = ⟨(collectQuestions apiKey qrs).events, [], none, .exitedEmpty⟩ := by
  intro apiKey qrs ars h1 h2
  simp [runProgram, h1, h2]

/-- Witness for C10 at a concrete input: a first page with no items. -/
theorem empty_collection_exits_witness :
    ((collectQuestions "" [.ok [] none]).outcome = .finished
      ∧ (collectQuestions "" [.ok [] none]).questions = [])
    ∧ runProgram "" [.ok [] none] (fun _ => .ok [] none)
      = ⟨(collectQuestions "" [.ok [] none]).events, [], none, .exitedEmpty⟩ :=
  ⟨⟨by decide, by decide⟩,
   empty_collection_exits_before_output "" [.ok [] none] (fun _ => .ok [] none)
     (by decide) (by decide)⟩

/-- The request-and-sleep opening of a chunk contributes the chunk's ids. -/
theorem requestedIds_aprepend2 (c : List Int) (p : AParams) (d : Rat)
    (r : ResolveResult) :
    requestedIds (aprepend [.request c p, .sleep d] r) = c ++ requestedIds r := by
  simp [requestedIds, aprepend]

/-- The request-only opening of a chunk contributes the chunk's ids. -/
theorem requestedIds_aprepend1 (c : List Int) (p : AParams)
    (r : ResolveResult) :
    requestedIds (aprepend [.request c p] r) = c ++ requestedIds r := by
  simp [requestedIds, aprepend]

/-- The ids a resolver run sends are an initial segment of the
concatenation of its chunks (a crash can cut the run short, everything
else consumes exactly one chunk per request). -/
theorem resolveChunks_requestedIds (apiKey : String) :
    ∀ (cs : List (List Int)) (rs : Nat → AResponse) (acc : List (Int × String)),
      ∃ t, requestedIds (resolveChunks apiKey rs cs acc) ++ t = cs.flatten := by
  intro cs
  induction cs with
  | nil => intro rs acc; exact ⟨[], by simp [resolveChunks, requestedIds]⟩
  | cons c cs ih =>
    intro rs acc
    cases hr : rs 0 with
    | throttle w =>
      cases w with
      | none =>
        obtain ⟨t, ht⟩ := ih (fun n => rs (n + 1)) acc
        refine ⟨t, ?_⟩
        have hstep : resolveChunks apiKey rs (c :: cs) acc
            = aprepend [.request c (mkAParams apiKey), .sleep 60]
                (resolveChunks apiKey (fun n => rs (n + 1)) cs acc) := by
          simp [resolveChunks, hr]
        rw [hstep, requestedIds_aprepend2]
        simp [ht]
      | some w =>
        obtain ⟨t, ht⟩ := ih (fun n => rs (n + 1)) acc
        refine ⟨t, ?_⟩
        have hstep : resolveChunks apiKey rs (c :: cs) acc
            = aprepend [.request c (mkAParams apiKey), .sleep (w : Rat)]
                (resolveChunks apiKey (fun n => rs (n + 1)) cs acc) := by
          simp [resolveChunks, hr]
        rw [hstep, requestedIds_aprepend2]
        simp [ht]
    | otherError =>
      obtain ⟨t, ht⟩ := ih (fun n => rs (n + 1)) acc
      refine ⟨t, ?_⟩
      have hstep : resolveChunks apiKey rs (c :: cs) acc
          = aprepend [.request c (mkAParams apiKey)]
              (resolveChunks apiKey (fun n => rs (n + 1)) cs acc) := by
        simp [resolveChunks, hr]
      rw [hstep, requestedIds_aprepend1]
      simp [ht]
    | badJson =>
      obtain ⟨t, ht⟩ := ih (fun n => rs (n + 1)) acc
      refine ⟨t, ?_⟩
      have hstep : resolveChunks apiKey rs (c :: cs) acc
          = aprepend [.request c (mkAParams apiKey)]
              (resolveChunks apiKey (fun n => rs (n + 1)) cs acc) := by
        simp [resolveChunks, hr]
      rw [hstep, requestedIds_aprepend1]
      simp [ht]
    | ok items backoff =>
      cases hrec : recordAnswers items acc with
      | mk acc2 crashed =>
        cases crashed with
        | true =>
          refine ⟨cs.flatten, ?_⟩
          have hstep : resolveChunks apiKey rs (c :: cs) acc
              = ⟨[.request c (mkAParams apiKey)], acc2, .crashed⟩ := by
            simp [resolveChunks, hr, hrec]
          rw [hstep]
          simp [requestedIds]
        | false =>
          obtain ⟨t, ht⟩ := ih (fun n => rs (n + 1)) acc2
          refine ⟨t, ?_⟩
          have hstep : resolveChunks apiKey rs (c :: cs) acc
              = aprepend [.request c (mkAParams apiKey),
                  .sleep (pacingOf backoff)]
                  (resolveChunks apiKey (fun n => rs (n + 1)) cs acc2) := by
            simp [resolveChunks, hr, hrec]
          rw [hstep, requestedIds_aprepend2]
          simp [ht]

/-- C4 counterexample: two collected questions with distinct question ids
but the same `accepted_answer_id` 5.  The dict of line 103 is keyed by
question id, so it keeps both entries, its value list is `[5, 5]`, and
the resolver sends id 5 twice — refuting the claim that no identifier is
ever requested twice. -/
theorem resolver_repeated_id_counterexample :
    buildAcceptedIds
        [(⟨some 1, some 10, some 5, none, none, none, none⟩ : Item),
         ⟨some 2, some 9, some 5, none, none, none, none⟩] []
      = some [(1, 5), (2, 5)]
    ∧ ([(1, 5), (2, 5)] : List (Int × Int)).map (fun p => p.2) = [5, 5]
    ∧ (requestedIds (resolveAnswers "" [5, 5]
        (fun _ => .ok [] none))).count 5 = 2 :=
  ⟨by decide, by decide, by decide⟩

/-- C4 amended: the ids requested across all chunks form an initial
segment of the accepted-answer id list handed to the resolver, so each id
is requested at most as often as it occurs there; whenever that list has
no duplicates — in particular when distinct questions have distinct
accepted answers — every identifier is requested at most once. -/
theorem resolver_requests_each_id_at_most_once_of_nodup :
    (∀ (apiKey : String) (ids : List Int) (rs : Nat → AResponse),
      ∃ t, requestedIds (resolveAnswers apiKey ids rs) ++ t = ids)
    ∧ (∀ (apiKey : String) (ids : List Int) (rs : Nat → AResponse),
        ids.Nodup → ∀ x : Int,
        (requestedIds (resolveAnswers apiKey ids rs)).count x ≤ 1) := by
  have hseg : ∀ (apiKey : String) (ids : List Int) (rs : Nat → AResponse),
      ∃ t, requestedIds (resolveAnswers apiKey ids rs) ++ t = ids := by
    intro apiKey ids rs
    obtain ⟨t, ht⟩ := resolveChunks_requestedIds apiKey (chunksFrom ids) rs []
    rw [chunksFrom_flatten] at ht
    exact ⟨t, ht⟩
  refine ⟨hseg, ?_⟩
  intro apiKey ids rs hnd x
  obtain ⟨t, ht⟩ := hseg apiKey ids rs
  have hcount : (requestedIds (resolveAnswers apiKey ids rs)).count x
      + t.count x = ids.count x := by
    rw [← List.count_append, ht]
  have hone := List.nodup_iff_count_le_one.mp hnd x
  omega

/-- Witness for C4's amended claim at a concrete input: two distinct ids,
resolved under constant throttling, are each requested at most once. -/
theorem resolver_requests_nodup_witness :
    ([5, 7] : List Int).Nodup
    ∧ (requestedIds (resolveAnswers "" [5, 7]
        (fun _ => .throttle (some 3)))).count 5 ≤ 1 :=
  ⟨by decide,
   resolver_requests_each_id_at_most_once_of_nodup.2 "" [5, 7]
     (fun _ => .throttle (some 3)) (by decide) 5⟩

/-- C7 counterexample: a question whose accepted answer resolved to the
EMPTY body.  Its resolved-content column is empty even though the item has
a related identifier that IS present in the mapping, refuting the
claimed "exactly when". -/
theorem writer_empty_body_counterexample :
    ¬ (((mkRow [(5, "")] ⟨some 1, some 10, some 5, some "t", some "b",
          some [], some true⟩).accepted_answer = "")
        ↔ ((⟨some 1, some 10, some 5, some "t", some "b", some [],
              some true⟩ : Item).accepted_answer_id = none
           ∨ dictFind [(5, "")] 5 = none)) := by
  decide

/-- C7 amended: the writer emits exactly one row per collected item, and
a row's resolved-content column is empty WHENEVER its item has no
related identifier or that identifier is absent from the mapping; the
converse (the claimed "exactly when") holds additionally provided every
resolved content in the mapping is non-empty — an empty resolved body
also produces an empty column. -/
theorem writer_row_count_and_empty_column :
    (∀ (answers : List (Int × String)) (qs : List Item),
      (writeRows answers qs).length = qs.length)
    ∧ (∀ (answers : List (Int × String)) (q : Item),
        (q.accepted_answer_id = none
          ∨ ∃ a, q.accepted_answer_id = some a ∧ dictFind answers a = none) →
        (mkRow answers q).accepted_answer = "")
    ∧ (∀ (answers : List (Int × String)) (q : Item),
        (∀ p ∈ answers, p.2 ≠ "") →
        ((mkRow answers q).accepted_answer = ""
          ↔ (q.accepted_answer_id = none
             ∨ ∃ a, q.accepted_answer_id = some a
                 ∧ dictFind answers a = none))) := by
  refine ⟨?_, ?_, ?_⟩
  · intro answers qs
    simp [writeRows]
  · intro answers q h
    rcases h with h | ⟨a, ha, hfind⟩
    · simp [mkRow, h]
    · simp [mkRow, ha, hfind]
  · intro answers q hvals
    constructor
    · intro hcol
      cases ha : q.accepted_answer_id with
      | none => exact Or.inl rfl
      | some a =>
        cases hfind : dictFind answers a with
        | none => exact Or.inr ⟨a, rfl, hfind⟩
        | some s =>
          exfalso
          have hs : s = "" := by
            simp [mkRow, ha, hfind] at hcol
            exact hcol
          obtain ⟨p, hp, hps⟩ : ∃ p ∈ answers, p.2 = s := by
            unfold dictFind at hfind
            cases hfp : answers.find? (fun p => p.1 == a) with
            | none => rw [hfp] at hfind; simp at hfind
            | some p0 =>
              rw [hfp] at hfind
              simp at hfind
              exact ⟨p0, List.mem_of_find?_eq_some hfp, hfind⟩
          exact hvals p hp (hps.trans hs)
    · intro h
      rcases h with h | ⟨a, ha, hfind⟩
      · simp [mkRow, h]
      · simp [mkRow, ha, hfind]

/-- Witness for C7's amended claim at concrete inputs: an item with no
accepted answer gets an empty column, and over a mapping with only
non-empty contents the column is empty exactly under the stated
condition. -/
theorem writer_row_count_witness :
    ((⟨some 1, some 10, none, none, none, none, none⟩ : Item).accepted_answer_id
        = none
      ∨ ∃ a, (⟨some 1, some 10, none, none, none, none,
            none⟩ : Item).accepted_answer_id = some a
          ∧ dictFind ([] : List (Int × String)) a = none)
    ∧ (mkRow [] ⟨some 1, some 10, none, none, none, none,
        none⟩).accepted_answer = ""
    ∧ (∀ p ∈ ([((5 : Int), "x")] : List (Int × String)), p.2 ≠ "")
    ∧ ((mkRow [((5 : Int), "x")] ⟨some 1, some 10, some 5, none, none, none,
          none⟩).accepted_answer = ""
        ↔ ((⟨some 1, some 10, some 5, none, none, none,
              none⟩ : Item).accepted_answer_id = none
           ∨ ∃ a, (⟨some 1, some 10, some 5, none, none, none,
                none⟩ : Item).accepted_answer_id = some a
               ∧ dictFind [((5 : Int), "x")] a = none)) :=
  ⟨Or.inl rfl,
   writer_row_count_and_empty_column.2.1 [] _ (Or.inl rfl),
   by decide,
   writer_row_count_and_empty_column.2.2 [((5 : Int), "x")] _ (by decide)⟩

/-- A single item without a creation date poisons the page minimum: the
`min` generator of line 79 raises `KeyError`. -/
theorem minCreation_eq_none_of_mem :
    ∀ (items : List Item) (it : Item), it ∈ items → it.creation_date = none →
      minCreation items = none := by
  intro items
  induction items with
  | nil => intro it h _; simp at h
  | cons x rest ih =>
    intro it hmem hcd
    cases rest with
    | nil =>
      simp at hmem
      subst hmem
      simpa [minCreation] using hcd
    | cons y rest2 =>
      rcases List.mem_cons.mp hmem with h | h
      · subst h
        simp [minCreation, hcd]
      · have hr := ih it h hcd
        cases hx : x.creation_date <;> simp [minCreation, hr, hx]

/-- A returned answer record without an `answer_id` makes the recording
loop of lines 151-152 raise `KeyError`. -/
theorem recordAnswers_crashed :
    ∀ (items : List AnsRec) (acc : List (Int × String)),
      (∃ a ∈ items, a.answer_id = none) →
      (recordAnswers items acc).2 = true := by
  intro items
  induction items with
  | nil => intro acc h; simp at h
  | cons a rest ih =>
    intro acc h
    cases ha : a.answer_id with
    | none => simp [recordAnswers, ha]
    | some i =>
      obtain ⟨b, hb, hbid⟩ := h
      rcases List.mem_cons.mp hb with rfl | hb2
      · rw [ha] at hbid
        exact Option.noConfusion hbid
      · have := ih (dictInsert acc i (a.body.getD "")) ⟨b, hb2, hbid⟩
        simpa [recordAnswers, ha] using this

/-- C9: a successful page containing an item without `creation_date`
crashes the collector at line 79 (consuming only that response — no
stage-local handler catches it), a successful answers response containing
a record without `answer_id` crashes the resolver at line 152, and either
crash aborts the whole run: the program ends `crashed` with no output
file (and, for a collector crash, with no resolver request at all). -/
theorem missing_field_crashes_run :
    (∀ (apiKey : String) (m : Option Int) (acc : List Item)
        (items : List Item) (backoff : Option Nat) (rest : List QResponse),
      items ≠ [] → (∃ it ∈ items, it.creation_date = none) →
      (collectLoop apiKey m acc (.ok items backoff :: rest)).outcome = .crashed
      ∧ (collectLoop apiKey m acc (.ok items backoff :: rest)).consumed = 1)
    ∧ (∀ (apiKey : String) (rs : Nat → AResponse) (c : List Int)
        (cs : List (List Int)) (acc : List (Int × String))
        (items : List AnsRec) (backoff : Option Nat),
      (∃ a ∈ items, a.answer_id = none) →
      (resolveChunks apiKey (consO (.ok items backoff) rs)
        (c :: cs) acc).outcome = .crashed)
    ∧ (∀ (apiKey : String) (qrs : List QResponse) (ars : Nat → AResponse),
      (collectQuestions apiKey qrs).outcome = .crashed →
      (runProgram apiKey qrs ars).status = .crashed
      ∧ (runProgram apiKey qrs ars).output = none
      ∧ (runProgram apiKey qrs ars).aevents = [])
    ∧ (∀ (apiKey : String) (qrs : List QResponse) (ars : Nat → AResponse)
        (mp : List (Int × Int)),
      (collectQuestions apiKey qrs).outcome = .finished →
      (collectQuestions apiKey qrs).questions ≠ [] →
      buildAcceptedIds (collectQuestions apiKey qrs).questions [] = some mp →
      (resolveAnswers apiKey (mp.map (fun p => p.2)) ars).outcome = .crashed →
      (runProgram apiKey qrs ars).status = .crashed
      ∧ (runProgram apiKey qrs ars).output = none) := by
  refine ⟨?_, ?_, ?_, ?_⟩
  · intro apiKey m acc items backoff rest hne hex
    obtain ⟨it, hmem, hcd⟩ := hex
    have hm := minCreation_eq_none_of_mem items it hmem hcd
    have hie : items.isEmpty = false := by simpa using hne
    constructor
    · simp [collectLoop, hie, hm]
    · simp [collectLoop, hie, hm]
  · intro apiKey rs c cs acc items backoff hex
    have h2 := recordAnswers_crashed items acc hex
    cases hrec : recordAnswers items acc with
    | mk acc2 b =>
      rw [hrec] at h2
      simp at h2
      subst h2
      simp [resolveChunks, consO, hrec]
  · intro apiKey qrs ars h
    refine ⟨?_, ?_, ?_⟩ <;> simp [runProgram, h]
  · intro apiKey qrs ars mp h1 h2 h3 h4
    have hie : (collectQuestions apiKey qrs).questions.isEmpty = false := by
      simpa using h2
    constructor <;> simp [runProgram, h1, hie, h3, h4]

/-- Witness for C9 at concrete inputs: one question page whose item lacks
`creation_date`, one answers response whose record lacks `answer_id`, and
two full runs crashing on each. -/
theorem missing_field_crashes_run_witness :
    (([(⟨some 1, none, none, none, none, none, none⟩ : Item)] : List Item) ≠ []
      ∧ (∃ it ∈ ([(⟨some 1, none, none, none, none, none,
            none⟩ : Item)] : List Item), it.creation_date = none)
      ∧ (collectLoop "" none []
          (.ok [⟨some 1, none, none, none, none, none, none⟩] none
            :: [])).outcome = .crashed)
    ∧ ((∃ a ∈ ([(⟨none, some "b"⟩ : AnsRec)] : List AnsRec),
          a.answer_id = none)
      ∧ (resolveChunks "" (consO (.ok [⟨none, some "b"⟩] none)
            (fun _ => .ok [] none)) ([5] :: []) []).outcome = .crashed)
    ∧ ((collectQuestions ""
          [.ok [⟨some 1, none, none, none, none, none, none⟩] none]).outcome
        = .crashed
      ∧ (runProgram ""
          [.ok [⟨some 1, none, none, none, none, none, none⟩] none]
          (fun _ => .ok [] none)).status = .crashed)
    ∧ ((resolveAnswers ""
          (([((1 : Int), (5 : Int))] : List (Int × Int)).map (fun p => p.2))
          (fun _ => .ok [⟨none, some "b"⟩] none)).outcome = .crashed
      ∧ (runProgram ""
          [.ok [⟨some 1, some 10, some 5, none, none, none, none⟩] none,
           .ok [] none]
          (fun _ => .ok [⟨none, some "b"⟩] none)).status = .crashed) :=
  ⟨⟨by decide, by decide,
    ((missing_field_crashes_run.1 "" none []
      [⟨some 1, none, none, none, none, none, none⟩] none []
      (by decide) (by decide)).1)⟩,
   ⟨by decide,
    missing_field_crashes_run.2.1 "" (fun _ => .ok [] none) [5] [] []
      [⟨none, some "b"⟩] none (by decide)⟩,
   ⟨by decide,
    (missing_field_crashes_run.2.2.1 ""
      [.ok [⟨some 1, none, none, none, none, none, none⟩] none]
      (fun _ => .ok [] none) (by decide)).1⟩,
   ⟨by decide,
    (missing_field_crashes_run.2.2.2 ""
      [.ok [⟨some 1, some 10, some 5, none, none, none, none⟩] none,
       .ok [] none]
      (fun _ => .ok [⟨none, some "b"⟩] none) [(1, 5)]
      (by decide) (by decide) (by decide) (by decide)).1⟩⟩

/-- C2 counterexample: the server returns the same single-item page twice.
Line 76 extends `all_questions` BEFORE the non-progress guard of line 80
runs, so the repeated page is appended and then the loop stops: the
collected list holds the item (question id 1) twice. -/
theorem collector_duplicate_page_counterexample :
    (collectQuestions ""
        [.ok [⟨some 1, some 10, none, none, none, none, none⟩] none,
         .ok [⟨some 1, some 10, none, none, none, none, none⟩] none]).questions
      = [⟨some 1, some 10, none, none, none, none, none⟩,
         ⟨some 1, some 10, none, none, none, none, none⟩]
    ∧ ¬ (((collectQuestions ""
          [.ok [⟨some 1, some 10, none, none, none, none, none⟩] none,
           .ok [⟨some 1, some 10, none, none, none, none, none⟩] none]).questions).map
        (fun it => it.question_id)).Nodup :=
  ⟨by decide, by decide⟩

/-- On a nonempty page whose items all carry creation dates, line 79
produces the date of some item of the page. -/
theorem minCreation_mem :
    ∀ (items : List Item), items ≠ [] →
      (∀ it ∈ items, (it.creation_date).isSome) →
      ∃ nm, minCreation items = some nm
        ∧ ∃ it0 ∈ items, it0.creation_date = some nm := by
  intro items
  induction items with
  | nil => intro h _; exact absurd rfl h
  | cons x rest ih =>
    intro _ hpres
    obtain ⟨c, hc⟩ :=
      Option.isSome_iff_exists.mp (hpres x (List.mem_cons_self x rest))
    cases rest with
    | nil =>
      refine ⟨c, ?_, x, List.mem_cons_self x [], hc⟩
      simp [minCreation, hc]
    | cons y rest2 =>
      obtain ⟨nm, hnm, it0, hmem0, hcd0⟩ :=
        ih (by simp) (fun it h => hpres it (List.mem_cons_of_mem x h))
      have hstep : minCreation (x :: y :: rest2) = some (min c nm) := by
        simp [minCreation, hc, hnm]
      by_cases hle : c ≤ nm
      · refine ⟨c, ?_, x, List.mem_cons_self x (y :: rest2), hc⟩
        rw [hstep, min_eq_left hle]
      · refine ⟨nm, ?_, it0, List.mem_cons_of_mem x hmem0, hcd0⟩
        rw [hstep, min_eq_right (le_of_not_le hle)]

/-- Unfolding of the strictly-older comparison. -/
theorem cdLt_iff (a b : Item) :
    cdLt a b = true
      ↔ ∃ x y, a.creation_date = some x ∧ b.creation_date = some y
          ∧ x < y := by
  cases ha : a.creation_date <;> cases hb : b.creation_date <;>
    simp [cdLt, ha, hb]

/-- Invariant-carrying induction for C2: when every page carries dated
items, pages are internally id-distinct, later pages are strictly older
than earlier ones, and equal question ids imply equal creation dates,
the collector accumulates pairwise-distinct question ids.  The
accumulator invariants: `acc` is already id-distinct, every item of every
remaining page is strictly older than (and id-distinct from) everything
in `acc`, and strictly older than the current marker. -/
theorem collect_nodup_aux (apiKey : String) :
    ∀ (rs : List QResponse) (m : Option Int) (acc : List Item),
      (∀ r ∈ rs, ∀ it ∈ okItems r, (it.creation_date).isSome) →
      (∀ r ∈ rs, (okItems r).Pairwise
        (fun a b => a.question_id ≠ b.question_id)) →
      (rs.Pairwise (fun r1 r2 => ∀ it1 ∈ okItems r1, ∀ it2 ∈ okItems r2,
        cdLt it2 it1)) →
      (∀ r1 ∈ rs, ∀ r2 ∈ rs, ∀ it1 ∈ okItems r1, ∀ it2 ∈ okItems r2,
        it1.question_id = it2.question_id →
        it1.creation_date = it2.creation_date) →
      (acc.Pairwise (fun a b => a.question_id ≠ b.question_id)) →
      (∀ it ∈ acc, ∀ r2 ∈ rs, ∀ it2 ∈ okItems r2,
        it.question_id ≠ it2.question_id ∧ cdLt it2 it) →
      (∀ mv, m = some mv → ∀ r2 ∈ rs, ∀ it2 ∈ okItems r2, ∀ c2,
        it2.creation_date = some c2 → c2 < mv) →
      ((collectLoop apiKey m acc rs).questions).Pairwise
        (fun a b => a.question_id ≠ b.question_id) := by
  intro rs
  induction rs with
  | nil =>
    intro m acc _ _ _ _ haccN _ _
    simpa [collectLoop] using haccN
  | cons r rest ih =>
    intro m acc hpres hpage hord hfun haccN haccF hmark
    have hpres2 : ∀ r2 ∈ rest, ∀ it ∈ okItems r2, (it.creation_date).isSome :=
      fun r2 h2 => hpres r2 (List.mem_cons_of_mem r h2)
    have hpage2 : ∀ r2 ∈ rest, (okItems r2).Pairwise
        (fun a b => a.question_id ≠ b.question_id) :=
      fun r2 h2 => hpage r2 (List.mem_cons_of_mem r h2)
    have hord2 := (List.pairwise_cons.mp hord).2
    have hordHead := (List.pairwise_cons.mp hord).1
    have hfun2 : ∀ r1 ∈ rest, ∀ r2 ∈ rest, ∀ it1 ∈ okItems r1,
        ∀ it2 ∈ okItems r2, it1.question_id = it2.question_id →
        it1.creation_date = it2.creation_date :=
      fun r1 h1 r2 h2 => hfun r1 (List.mem_cons_of_mem r h1)
        r2 (List.mem_cons_of_mem r h2)
    cases r with
    | throttle w =>
      have happly := ih m acc hpres2 hpage2 hord2 hfun2 haccN
        (fun it hit r2 h2 => haccF it hit r2 (List.mem_cons_of_mem _ h2))
        (fun mv hmv r2 h2 => hmark mv hmv r2 (List.mem_cons_of_mem _ h2))
      cases w with
      | none =>
        rw [show collectLoop apiKey m acc (.throttle none :: rest)
            = qprepend [.request (mkQParams apiKey m), .sleep 60] []
                (collectLoop apiKey m acc rest) from rfl]
        simpa [qprepend] using happly
      | some w2 =>
        rw [show collectLoop apiKey m acc (.throttle (some w2) :: rest)
            = qprepend [.request (mkQParams apiKey m), .sleep (w2 : Rat)] []
                (collectLoop apiKey m acc rest) from rfl]
        simpa [qprepend] using happly
    | otherError => simpa [collectLoop] using haccN
    | badJson => simpa [collectLoop] using haccN
    | ok items backoff =>
      by_cases hie : items.isEmpty
      · simpa [collectLoop, hie] using haccN
      · have hne : items ≠ [] := by simpa using hie
        have hpresH : ∀ it ∈ items, (it.creation_date).isSome := by
          have := hpres (.ok items backoff) (List.mem_cons_self _ _)
          simpa [okItems] using this
        obtain ⟨nm, hnm, it0, hmem0, hcd0⟩ := minCreation_mem items hne hpresH
        have hg : nonProgress m nm = false := by
          cases m with
          | none => simp [nonProgress]
          | some mv =>
            have hlt : nm < mv := hmark mv rfl (.ok items backoff)
              (List.mem_cons_self _ _) it0 hmem0 nm hcd0
            simp [nonProgress]
            omega
        have hstep : collectLoop apiKey m acc (.ok items backoff :: rest)
            = qprepend [.request (mkQParams apiKey m),
                .sleep (pacingOf backoff)] [nm]
                (collectLoop apiKey (some nm) (acc ++ items) rest) := by
          simp [collectLoop, hie, hnm, hg]
        rw [hstep]
        simp only [qprepend]
        refine ih (some nm) (acc ++ items) hpres2 hpage2 hord2 hfun2 ?_ ?_ ?_
        · rw [List.pairwise_append]
          refine ⟨haccN, ?_, ?_⟩
          · have := hpage (.ok items backoff) (List.mem_cons_self _ _)
            simpa [okItems] using this
          · intro a hA b hB
            exact (haccF a hA (.ok items backoff)
              (List.mem_cons_self _ _) b hB).1
        · intro it hit r2 h2 it2 hit2
          rcases List.mem_append.mp hit with hA | hI
          · exact haccF it hA r2 (List.mem_cons_of_mem _ h2) it2 hit2
          · have hlt := hordHead r2 h2 it hI it2 hit2
            constructor
            · intro hq
              have hcdEq := hfun (.ok items backoff)
                (List.mem_cons_self _ _) r2 (List.mem_cons_of_mem _ h2)
                it hI it2 hit2 hq
              obtain ⟨x, y, hx, hy, hxy⟩ := (cdLt_iff it2 it).mp hlt
              have : (some y : Option Int) = some x := by
                rw [← hy, hcdEq, hx]
              have := Option.some.inj this
              omega
            · exact hlt
        · intro mv hmv r2 h2 it2 hit2 c2 hc2
          obtain rfl : nm = mv := Option.some.inj hmv
          have hlt := hordHead r2 h2 it0 hmem0 it2 hit2
          obtain ⟨x, y, hx, hy, hxy⟩ := (cdLt_iff it2 it0).mp hlt
          have hy2 : y = nm := by
            have : (some y : Option Int) = some nm := by rw [← hy, hcd0]
            exact Option.some.inj this
          have hx2 : x = c2 := by
            have : (some x : Option Int) = some c2 := by rw [← hx, hc2]
            exact Option.some.inj this
          omega

/-- C2 amended: the collected question ids are pairwise distinct provided
the server behaves monotonically — every page item carries a creation
date, each page has internally distinct question ids, each page is
strictly older than every earlier page, and equal question ids imply
equal creation dates.  Without these (the counterexample repeats a page,
so its minimum creation time does not strictly decrease the cursor), the
repeated page is appended before the non-progress guard stops the loop
and the collected list contains duplicates. -/
theorem collector_nodup_of_monotone_api :
    ∀ (apiKey : String) (qrs : List QResponse),
      (∀ r ∈ qrs, ∀ it ∈ okItems r, (it.creation_date).isSome) →
      (∀ r ∈ qrs, (okItems r).Pairwise
        (fun a b => a.question_id ≠ b.question_id)) →
      (qrs.Pairwise (fun r1 r2 => ∀ it1 ∈ okItems r1, ∀ it2 ∈ okItems r2,
        cdLt it2 it1)) →
      (∀ r1 ∈ qrs, ∀ r2 ∈ qrs, ∀ it1 ∈ okItems r1, ∀ it2 ∈ okItems r2,
        it1.question_id = it2.question_id →
        it1.creation_date = it2.creation_date) →
      (((collectQuestions apiKey qrs).questions).map
        (fun it => it.question_id)).Nodup := by
  intro apiKey qrs h1 h2 h3 h4
  have hpw := collect_nodup_aux apiKey qrs none [] h1 h2 h3 h4
    List.Pairwise.nil
    (fun it hit => absurd hit (List.not_mem_nil it))
    (fun mv hmv => Option.noConfusion hmv)
  exact List.pairwise_map.mpr hpw

/-- Witness for C2's amended claim at a concrete input: two one-item
pages with strictly decreasing creation dates and distinct question ids
yield a duplicate-free collection. -/
theorem collector_nodup_witness :
    ((∀ r ∈ [QResponse.ok [⟨some 1, some 10, none, none, none, none,
          none⟩] none,
        QResponse.ok [⟨some 2, some 5, none, none, none, none, none⟩] none],
        ∀ it ∈ okItems r, (it.creation_date).isSome)
      ∧ (∀ r ∈ [QResponse.ok [⟨some 1, some 10, none, none, none, none,
            none⟩] none,
          QResponse.ok [⟨some 2, some 5, none, none, none, none,
            none⟩] none],
          (okItems r).Pairwise (fun a b => a.question_id ≠ b.question_id)))
    ∧ (((collectQuestions ""
        [QResponse.ok [⟨some 1, some 10, none, none, none, none,
            none⟩] none,
         QResponse.ok [⟨some 2, some 5, none, none, none, none,
            none⟩] none]).questions).map (fun it => it.question_id)).Nodup :=
  ⟨⟨by decide, by decide⟩,
   collector_nodup_of_monotone_api ""
     [QResponse.ok [⟨some 1, some 10, none, none, none, none, none⟩] none,
      QResponse.ok [⟨some 2, some 5, none, none, none, none, none⟩] none]
     (by decide) (by decide) (by decide) (by decide)⟩

end SOExtract
